import Mathlib

/-!
Verification of the population estimation engine.

The development embeds the engine (`populationEngine.ts`), its age/trait
helpers (`traitHelpers.ts`) and the share-composition utility
(`calculations.ts`) of the `totalmarketcalc` repository.  JavaScript
numbers are modelled as rationals (`ℚ`), JS `Set`s as lists, JS records
as association lists, and the `throw` on missing trait data as the
`Option` monad (`none` = the estimate call fails).
-/

/-- Sex keys of the ACS cell backbone (`types.ts`, `SexKey`). -/
inductive SexKey
  | male
  | female
deriving DecidableEq, Repr

/-- Census region keys (`types.ts`, `RegionKey`). -/
inductive RegionKey
  | northeast
  | midwest
  | south
  | west
deriving DecidableEq, Repr

/-- Age-band keys of the cell backbone (`traitHelpers.ts` uses the
eight-band scheme 0_14, 15_17, 18_24, ..., 65_plus). -/
inductive AgeBandKey
  | a0_14
  | a15_17
  | a18_24
  | a25_34
  | a35_44
  | a45_54
  | a55_64
  | a65_plus
deriving DecidableEq, Repr

/-- Display group of a modeled trait (`types.ts`, `TraitGroup`). -/
inductive TraitGroup
  | Health
  | Hobbies
  | Other
deriving DecidableEq, Repr

/-- Regional support of a modeled trait (`types.ts`, `RegionSupport`). -/
inductive RegionSupport
  | modeled
  | national_only
deriving DecidableEq, Repr

/-- A `{count, share}` entry of a category share table (`types.ts`,
`CategoryStats`). -/
structure CategoryStats where
  count : ℚ
  share : ℚ
deriving DecidableEq, Repr

/-- One population cell of the ACS backbone (`types.ts`, `AcsCell`). -/
structure AcsCell where
  cell_id : String
  region : RegionKey
  sex : SexKey
  age_band : AgeBandKey
  pop : ℚ
deriving DecidableEq, Repr

/-- The cell backbone with its stated total (`types.ts`, `AcsCells`). -/
structure AcsCells where
  total_pop : ℚ
  cells : List AcsCell
deriving DecidableEq, Repr

/-- Metadata of one modeled trait (`types.ts`, `TraitManifestEntry`);
only the fields the engine reads are modelled. -/
structure TraitManifestEntry where
  key : String
  group : TraitGroup
  source : String
  minAge : ℕ
  regionSupport : RegionSupport
deriving DecidableEq, Repr

/-- The trait manifest (`types.ts`, `TraitManifest`). -/
structure TraitManifest where
  traits : List TraitManifestEntry
deriving DecidableEq, Repr

/-- The modeled data bundle (`types.ts`, `ModeledAssets`): cell backbone,
manifest, and per-trait probability tables (trait key -> cell id -> p). -/
structure ModeledAssets where
  acsCells : AcsCells
  manifest : TraitManifest
  traitProbabilities : List (String × List (String × ℚ))
deriving DecidableEq, Repr

/-- The user's selection (`calculations.ts`, `SelectionState`): one set of
chosen keys per dimension; JS `Set`s are modelled as lists. -/
structure SelectionState where
  sex : List SexKey
  race : List String
  region : List RegionKey
  ageBand : List AgeBandKey
  modeledTraits : List String
  employment : List String
  children : List String
  income : List String
  education : List String
  householdType : List String
  transport : List String
deriving DecidableEq, Repr

/-- The share tables the engine reads (`types.ts`, `PopulationData`
restricted to the `dimensions` the engine uses). -/
structure PopulationData where
  race : List (String × CategoryStats)
  children : List (String × CategoryStats)
  income : List (String × CategoryStats)
  education : List (String × CategoryStats)
  householdType : List (String × CategoryStats)
  transport : List (String × CategoryStats)
  employment : List (String × CategoryStats)
deriving DecidableEq, Repr

/-- `AGE_BAND_MIN_AGES` from `traitHelpers.ts`: minimum age of each band. -/
def AGE_BAND_MIN_AGES : AgeBandKey → ℕ
  | .a0_14 => 0
  | .a15_17 => 15
  | .a18_24 => 18
  | .a25_34 => 25
  | .a35_44 => 35
  | .a45_54 => 45
  | .a55_64 => 55
  | .a65_plus => 65

/-- `EMPLOYMENT_ELIGIBILITY_FACTOR` from `traitHelpers.ts`: employment is
defined for ages 16+, so 0_14 gets 0, 15_17 gets the 2/3 approximation,
all others 1. -/
def EMPLOYMENT_ELIGIBILITY_FACTOR : AgeBandKey → ℚ
  | .a0_14 => 0
  | .a15_17 => 2 / 3
  | .a18_24 => 1
  | .a25_34 => 1
  | .a35_44 => 1
  | .a45_54 => 1
  | .a55_64 => 1
  | .a65_plus => 1

/-- `getEmploymentEligibilityFactor` from `traitHelpers.ts` (the `?? 1`
fallback of the source is unreachable because the table is total). -/
def getEmploymentEligibilityFactor (ageBand : AgeBandKey) : ℚ :=
  EMPLOYMENT_ELIGIBILITY_FACTOR ageBand

/-- `isAgeBandEligible` from `traitHelpers.ts`: a band is eligible iff its
minimum age is at least the required minimum age. -/
def isAgeBandEligible (band : AgeBandKey) (minAge : ℕ) : Bool :=
  decide (AGE_BAND_MIN_AGES band ≥ minAge)

/-- `computeEffectiveMinAge` from `traitHelpers.ts`:
`Math.max(...traits.map minAge)`, guarded to 0 for the empty list. -/
def computeEffectiveMinAge (traits : List TraitManifestEntry) : ℕ :=
  match traits with
  | [] => 0
  | _ => (traits.map (fun t => t.minAge)).foldr max 0

/-- `computeDenominatorPop` from `traitHelpers.ts`: total population of the
age-eligible cells. -/
def computeDenominatorPop (cells : List AcsCell) (minAge : ℕ) : ℚ :=
  (cells.filter (fun cell => isAgeBandEligible cell.age_band minAge)).foldl
    (fun sum cell => sum + cell.pop) 0

/-- `getUniverseLabel` from `traitHelpers.ts`. -/
def getUniverseLabel (minAge : ℕ) : String :=
  if minAge = 0 then "U.S. population (all ages)"
  else if minAge = 18 then "U.S. adults (18+)"
  else if minAge = 15 then "U.S. population (15+)"
  else "U.S. population (" ++ toString minAge ++ "+)"

/-- `dailyToWeekly` from `traitHelpers.ts`: clamp the daily probability to
[0,1], apply `1 - (1 - p)^7`, clamp again. -/
def dailyToWeekly (pDay : ℚ) : ℚ :=
  let clamped := min (max pDay 0) 1
  let pWeek := 1 - (1 - clamped) ^ 7
  min (max pWeek 0) 1

/-- `ATUS_HOBBY_TRAIT_KEYS` from `traitHelpers.ts`: hardcoded fallback list
of daily-diary traits. -/
def ATUS_HOBBY_TRAIT_KEYS : List String :=
  ["high_childcare_time", "has_pet_proxy", "plays_sports",
   "spiritual_activities", "volunteer_work"]

/-- Character-list test for `p` being an initial segment of a list
(model of the prefix step of JS `String.prototype.includes`). -/
def hasPrefixChars : List Char → List Char → Bool
  | [], _ => true
  | _ :: _, [] => false
  | p :: ps, c :: cs => (p == c) && hasPrefixChars ps cs

/-- Character-list substring containment: model of JS
`String.prototype.includes` on the characters of a string. -/
def hasSubChars (pat : List Char) : List Char → Bool
  | [] => hasPrefixChars pat []
  | c :: cs => hasPrefixChars pat (c :: cs) || hasSubChars pat cs

/-- Model of `source.toUpperCase().includes('ATUS')` from
`isAtusOrHobbyTrait` in `traitHelpers.ts` (ASCII uppercase per char). -/
def sourceMentionsATUS (src : String) : Bool :=
  hasSubChars "ATUS".toList (src.toList.map Char.toUpper)

/-- `isAtusOrHobbyTrait` from `traitHelpers.ts`: uses manifest metadata
(group `Hobbies` or an ATUS source) when the trait is found, the hardcoded
fallback list otherwise.  The engine always passes a manifest, so the
source's optional-manifest guard always takes its then-branch here. -/
def isAtusOrHobbyTrait (traitKey : String) (manifest : TraitManifest) : Bool :=
  match manifest.traits.find? (fun t => t.key == traitKey) with
  | some trait => trait.group == TraitGroup.Hobbies || sourceMentionsATUS trait.source
  | none => ATUS_HOBBY_TRAIT_KEYS.contains traitKey

/-- `shares[key]?.share ?? 0` from `computeDimensionProbability` in
`calculations.ts`: the stored share of a key, 0 when the key is unknown. -/
def shareOf (shares : List (String × CategoryStats)) (key : String) : ℚ :=
  ((shares.lookup key).map CategoryStats.share).getD 0

/-- `computeDimensionProbability` from `calculations.ts`: union probability
`1 - prod (1 - share)` over the selected keys, 1 for an empty selection. -/
def computeDimensionProbability (selected : List String)
    (shares : List (String × CategoryStats)) : ℚ :=
  if selected.isEmpty then 1
  else
    let remaining := selected.foldl (fun product key => product * (1 - shareOf shares key)) 1
    1 - remaining

/-- `clamp` from `populationEngine.ts`:
`Math.min(max, Math.max(min, value))`; the engine always calls it with
bounds 0 and 1. -/
def clamp (value lo hi : ℚ) : ℚ :=
  min hi (max lo value)

/-- `filterCells` from `populationEngine.ts`: keep the cells that are
age-eligible and match the region / sex / age-band choices (an empty
chosen set means the dimension is unconstrained; a chosen age band must
additionally be age-eligible itself). -/
def filterCells (cells : List AcsCell) (selection : SelectionState)
    (effectiveMinAge : ℕ) : List AcsCell :=
  cells.filter (fun cell =>
    if !(isAgeBandEligible cell.age_band effectiveMinAge) then false
    else
      let matchesRegion :=
        if selection.region.isEmpty then true
        else decide (cell.region ∈ selection.region)
      let matchesSex :=
        if selection.sex.isEmpty then true
        else decide (cell.sex ∈ selection.sex)
      let matchesAge :=
        if selection.ageBand.isEmpty then true
        else decide (cell.age_band ∈ selection.ageBand)
          && isAgeBandEligible cell.age_band effectiveMinAge
      matchesRegion && matchesSex && matchesAge)

/-- `computeBaseShareFactor` from `populationEngine.ts`: product of the
dimension probabilities of the six share-level dimensions (employment is
excluded, it is handled per cell), clamped to [0,1]. -/
def computeBaseShareFactor (selection : SelectionState)
    (population : PopulationData) : ℚ :=
  let entries : List (List String × List (String × CategoryStats)) :=
    [(selection.race, population.race),
     (selection.children, population.children),
     (selection.income, population.income),
     (selection.education, population.education),
     (selection.householdType, population.householdType),
     (selection.transport, population.transport)]
  let product := entries.foldl (fun acc e => acc * computeDimensionProbability e.1 e.2) 1
  clamp product 0 1

/-- `computeCellEmploymentFactor` from `populationEngine.ts`: 1 when no
employment key is chosen; otherwise the band's eligibility factor times
the employment dimension probability (0 short-circuits). -/
def computeCellEmploymentFactor (ageBand : AgeBandKey)
    (selection : SelectionState) (population : PopulationData) : ℚ :=
  if selection.employment.isEmpty then 1
  else
    let eligibilityFactor := getEmploymentEligibilityFactor ageBand
    if eligibilityFactor = 0 then 0
    else
      let employmentProb :=
        computeDimensionProbability selection.employment population.employment
      eligibilityFactor * employmentProb

/-- `probabilities[key]?.[cellId]` from `traitProduct` in
`populationEngine.ts`: look a trait's probability up at a cell. -/
def lookupTraitProb (probabilities : List (String × List (String × ℚ)))
    (key cellId : String) : Option ℚ :=
  (probabilities.lookup key).bind (fun table => table.lookup cellId)

/-- `traitProduct` from `populationEngine.ts`: product over the selected
trait keys of the cell's (daily-to-weekly converted, for ATUS/Hobbies
traits) probability; the source throws on a missing entry, modelled as
`none`. -/
def traitProduct (cellId : String) (traitKeys : List String)
    (probabilities : List (String × List (String × ℚ)))
    (manifest : TraitManifest) : Option ℚ :=
  traitKeys.foldlM (fun acc key =>
    (lookupTraitProb probabilities key cellId).map (fun prob =>
      acc * (if isAtusOrHobbyTrait key manifest then dailyToWeekly prob else prob))) 1

/-- `EstimateResult` from `populationEngine.ts`. -/
structure EstimateResult where
  estimated : ℤ
  probability : ℚ
  shareFactor : ℚ
  matchingCells : ℕ
  denominatorPop : ℚ
  universeLabel : String
  nationalModelSelected : Bool
  effectiveMinAge : ℕ
deriving DecidableEq, Repr

/-- JS `Math.round`: round half toward positive infinity. -/
def jsRound (x : ℚ) : ℤ :=
  ⌊x + 1 / 2⌋

/-- `estimatePopulation` from `populationEngine.ts`, the engine entry
point.  The two reduces of the source that call the throwing
`traitProduct` become `Option`-monad folds; any missing trait entry makes
the whole call `none`. -/
def estimatePopulation (selection : SelectionState) (modeled : ModeledAssets)
    (population : PopulationData) : Option EstimateResult :=
  let traitKeys := selection.modeledTraits
  let selectedTraits := modeled.manifest.traits.filter (fun t => decide (t.key ∈ traitKeys))
  let effectiveMinAge := computeEffectiveMinAge selectedTraits
  let nationalModelSelected :=
    selectedTraits.any (fun t => decide (t.regionSupport = RegionSupport.national_only))
  let universeLabel := getUniverseLabel effectiveMinAge
  let denominatorPop :=
    if effectiveMinAge = 0 then modeled.acsCells.total_pop
    else computeDenominatorPop modeled.acsCells.cells effectiveMinAge
  let filtered := filterCells modeled.acsCells.cells selection effectiveMinAge
  let baseShareFactor := computeBaseShareFactor selection population
  let cellMultiplier := fun (cell : AcsCell) =>
    if traitKeys.isEmpty then some 1
    else traitProduct cell.cell_id traitKeys modeled.traitProbabilities modeled.manifest
  (filtered.foldlM (fun acc cell =>
      (cellMultiplier cell).map (fun modeledMultiplier =>
        acc + cell.pop * modeledMultiplier
          * computeCellEmploymentFactor cell.age_band selection population
          * baseShareFactor)) 0).bind
    (fun weightedSum =>
      (filtered.foldlM (fun acc cell =>
          (cellMultiplier cell).map (fun modeledMultiplier =>
            acc + cell.pop * modeledMultiplier)) 0).map
        (fun baseWeightedSum =>
          let estimated := weightedSum
          let probability := if denominatorPop = 0 then 0 else estimated / denominatorPop
          let effectiveShareFactor :=
            if baseWeightedSum > 0 then estimated / baseWeightedSum else 1
          { estimated := jsRound estimated
            probability := clamp probability 0 1
            shareFactor := clamp effectiveShareFactor 0 1
            matchingCells := filtered.length
            denominatorPop := denominatorPop
            universeLabel := universeLabel
            nationalModelSelected := nationalModelSelected
            effectiveMinAge := effectiveMinAge }))

/-- The effective per-trait probability the engine multiplies in for one
trait key at one cell probability: daily-to-weekly converted exactly for
ATUS/Hobbies traits (specification-side name for the subterm of
`traitProduct`). -/
def effectiveTraitProb (manifest : TraitManifest) (key : String) (p : ℚ) : ℚ :=
  if isAtusOrHobbyTrait key manifest then dailyToWeekly p else p

/-- Specification-side closed form of the per-cell trait multiplier: the
product over the selected trait keys of the effective probabilities. -/
def cellTraitMultiplier (modeled : ModeledAssets) (traitKeys : List String)
    (cell : AcsCell) : ℚ :=
  (traitKeys.map (fun k =>
    effectiveTraitProb modeled.manifest k
      ((lookupTraitProb modeled.traitProbabilities k cell.cell_id).getD 0))).prod

/-- The manifest entries of the selected traits, as the engine computes
them. -/
def selectedManifestTraits (selection : SelectionState)
    (modeled : ModeledAssets) : List TraitManifestEntry :=
  modeled.manifest.traits.filter (fun t => decide (t.key ∈ selection.modeledTraits))

/-- The engine's effective minimum age for a selection. -/
def engineMinAge (selection : SelectionState) (modeled : ModeledAssets) : ℕ :=
  computeEffectiveMinAge (selectedManifestTraits selection modeled)

/-- The engine's filtered cell set for a selection. -/
def engineFiltered (selection : SelectionState) (modeled : ModeledAssets) : List AcsCell :=
  filterCells modeled.acsCells.cells selection (engineMinAge selection modeled)

/-- The engine's denominator population for a selection. -/
def engineDenominator (selection : SelectionState) (modeled : ModeledAssets) : ℚ :=
  if engineMinAge selection modeled = 0 then modeled.acsCells.total_pop
  else computeDenominatorPop modeled.acsCells.cells (engineMinAge selection modeled)

/-- Specification-side contribution of one filtered cell:
population x trait multiplier x employment factor x base share factor. -/
def cellContribution (selection : SelectionState) (modeled : ModeledAssets)
    (population : PopulationData) (cell : AcsCell) : ℚ :=
  cell.pop * cellTraitMultiplier modeled selection.modeledTraits cell
    * computeCellEmploymentFactor cell.age_band selection population
    * computeBaseShareFactor selection population

/-- Specification-side closed form of the engine's weighted sum. -/
def weightedSumSpec (selection : SelectionState) (modeled : ModeledAssets)
    (population : PopulationData) : ℚ :=
  ((engineFiltered selection modeled).map (cellContribution selection modeled population)).sum

/-- Specification-side closed form of the engine's pre-share weighted sum. -/
def baseWeightedSumSpec (selection : SelectionState) (modeled : ModeledAssets) : ℚ :=
  ((engineFiltered selection modeled).map (fun cell =>
    cell.pop * cellTraitMultiplier modeled selection.modeledTraits cell)).sum

/-- Specification-side closed form of the full estimate record the engine
returns when no trait entry is missing. -/
def resultSpec (selection : SelectionState) (modeled : ModeledAssets)
    (population : PopulationData) : EstimateResult :=
  { estimated := jsRound (weightedSumSpec selection modeled population)
    probability :=
      clamp (if engineDenominator selection modeled = 0 then 0
        else weightedSumSpec selection modeled population / engineDenominator selection modeled) 0 1
    shareFactor :=
      clamp (if baseWeightedSumSpec selection modeled > 0 then
          weightedSumSpec selection modeled population / baseWeightedSumSpec selection modeled
        else 1) 0 1
    matchingCells := (engineFiltered selection modeled).length
    denominatorPop := engineDenominator selection modeled
    universeLabel := getUniverseLabel (engineMinAge selection modeled)
    nationalModelSelected :=
      (selectedManifestTraits selection modeled).any
        (fun t => decide (t.regionSupport = RegionSupport.national_only))
    effectiveMinAge := engineMinAge selection modeled }

theorem lookup_mem {β : Type} {l : List (String × β)} {k : String} {v : β}
    (h : List.lookup k l = some v) : (k, v) ∈ l := by
  induction l with
  | nil => simp [List.lookup] at h
  | cons p t ih =>
    obtain ⟨a, b⟩ := p
    by_cases hk : k = a
    · subst hk
      simp [List.lookup] at h
      simp [h]
    · have hk2 : (k == a) = false := by simpa using hk
      simp [List.lookup, hk2] at h
      exact List.mem_cons_of_mem _ (ih h)

theorem foldl_add_eq_sum (l : List AcsCell) :
    ∀ acc : ℚ, l.foldl (fun sum cell => sum + cell.pop) acc
      = acc + (l.map (fun cell => cell.pop)).sum := by
  induction l with
  | nil => intro acc; simp
  | cons c t ih =>
    intro acc
    simp only [List.foldl_cons, List.map_cons, List.sum_cons]
    rw [ih]
    ring

theorem computeDenominatorPop_eq_sum (cells : List AcsCell) (minAge : ℕ) :
    computeDenominatorPop cells minAge
      = ((cells.filter (fun cell => isAgeBandEligible cell.age_band minAge)).map
          (fun cell => cell.pop)).sum := by
  unfold computeDenominatorPop
  rw [foldl_add_eq_sum]
  ring

theorem foldl_mul_eq_prod (f : String → ℚ) (l : List String) :
    ∀ acc : ℚ, l.foldl (fun product key => product * f key) acc
      = acc * (l.map f).prod := by
  induction l with
  | nil => intro acc; simp
  | cons k t ih =>
    intro acc
    simp only [List.foldl_cons, List.map_cons, List.prod_cons]
    rw [ih]
    ring

theorem computeDimensionProbability_closed (selected : List String)
    (shares : List (String × CategoryStats)) (h : selected ≠ []) :
    computeDimensionProbability selected shares
      = 1 - (selected.map (fun key => 1 - shareOf shares key)).prod := by
  unfold computeDimensionProbability
  rw [if_neg (by simpa [List.isEmpty_iff] using h)]
  rw [foldl_mul_eq_prod (fun key => 1 - shareOf shares key) selected 1]
  ring

theorem computeDimensionProbability_nil (shares : List (String × CategoryStats)) :
    computeDimensionProbability [] shares = 1 := rfl

theorem shareOf_mem_unit {shares : List (String × CategoryStats)}
    (h : ∀ kv ∈ shares, 0 ≤ kv.2.share ∧ kv.2.share ≤ 1) (key : String) :
    0 ≤ shareOf shares key ∧ shareOf shares key ≤ 1 := by
  unfold shareOf
  cases hl : List.lookup key shares with
  | none => simp
  | some stats =>
    have := h (key, stats) (lookup_mem hl)
    simpa using this

theorem prod_one_sub_share_unit {shares : List (String × CategoryStats)}
    (h : ∀ kv ∈ shares, 0 ≤ kv.2.share ∧ kv.2.share ≤ 1) (selected : List String) :
    0 ≤ (selected.map (fun key => 1 - shareOf shares key)).prod
      ∧ (selected.map (fun key => 1 - shareOf shares key)).prod ≤ 1 := by
  induction selected with
  | nil => simp
  | cons k t ih =>
    obtain ⟨h0, h1⟩ := shareOf_mem_unit h k
    simp only [List.map_cons, List.prod_cons]
    constructor
    · exact mul_nonneg (by linarith) ih.1
    · calc (1 - shareOf shares k) * (t.map (fun key => 1 - shareOf shares key)).prod
          ≤ 1 * 1 := by
            apply mul_le_mul (by linarith) ih.2 ih.1 (by norm_num)
      _ = 1 := by norm_num

theorem computeDimensionProbability_unit {shares : List (String × CategoryStats)}
    (h : ∀ kv ∈ shares, 0 ≤ kv.2.share ∧ kv.2.share ≤ 1) (selected : List String) :
    0 ≤ computeDimensionProbability selected shares
      ∧ computeDimensionProbability selected shares ≤ 1 := by
  cases hs : selected with
  | nil => simp [computeDimensionProbability_nil]
  | cons k t =>
    rw [← hs, computeDimensionProbability_closed selected shares (by simp [hs])]
    obtain ⟨h0, h1⟩ := prod_one_sub_share_unit h selected
    constructor <;> linarith

theorem clamp_unit (x : ℚ) : 0 ≤ clamp x 0 1 ∧ clamp x 0 1 ≤ 1 := by
  unfold clamp
  constructor
  · exact le_min (by norm_num) (le_max_left 0 x)
  · exact min_le_left 1 _

theorem dailyToWeekly_unit (p : ℚ) : 0 ≤ dailyToWeekly p ∧ dailyToWeekly p ≤ 1 := by
  unfold dailyToWeekly
  constructor
  · exact le_min (le_max_right _ 0) (by norm_num)
  · exact min_le_right _ 1

theorem computeBaseShareFactor_unit (selection : SelectionState)
    (population : PopulationData) :
    0 ≤ computeBaseShareFactor selection population
      ∧ computeBaseShareFactor selection population ≤ 1 := by
  unfold computeBaseShareFactor
  exact clamp_unit _

theorem getEmploymentEligibilityFactor_unit (band : AgeBandKey) :
    0 ≤ getEmploymentEligibilityFactor band ∧ getEmploymentEligibilityFactor band ≤ 1 := by
  cases band <;> norm_num [getEmploymentEligibilityFactor, EMPLOYMENT_ELIGIBILITY_FACTOR]

theorem computeCellEmploymentFactor_unit {population : PopulationData}
    (hsh : ∀ kv ∈ population.employment, 0 ≤ kv.2.share ∧ kv.2.share ≤ 1)
    (band : AgeBandKey) (selection : SelectionState) :
    0 ≤ computeCellEmploymentFactor band selection population
      ∧ computeCellEmploymentFactor band selection population ≤ 1 := by
  unfold computeCellEmploymentFactor
  by_cases he : selection.employment.isEmpty
  · simp [he]
  · rw [if_neg he]
    by_cases hz : getEmploymentEligibilityFactor band = 0
    · simp [hz]
    · rw [if_neg hz]
      obtain ⟨e0, e1⟩ := getEmploymentEligibilityFactor_unit band
      obtain ⟨p0, p1⟩ := computeDimensionProbability_unit hsh selection.employment
      constructor
      · exact mul_nonneg e0 p0
      · calc getEmploymentEligibilityFactor band
            * computeDimensionProbability selection.employment population.employment
            ≤ 1 * 1 := mul_le_mul e1 p1 p0 (by norm_num)
        _ = 1 := by norm_num

theorem traitProduct_foldlM_acc (cellId : String)
    (probabilities : List (String × List (String × ℚ))) (manifest : TraitManifest) :
    ∀ (keys : List String),
      (∀ k ∈ keys, (lookupTraitProb probabilities k cellId).isSome) →
      ∀ acc : ℚ,
        List.foldlM (fun acc key =>
            (lookupTraitProb probabilities key cellId).map (fun prob =>
              acc * (if isAtusOrHobbyTrait key manifest then dailyToWeekly prob else prob)))
          acc keys
        = some (acc * (keys.map (fun k =>
            effectiveTraitProb manifest k
              ((lookupTraitProb probabilities k cellId).getD 0))).prod) := by
  intro keys
  induction keys with
  | nil => intro _ acc; simp [List.foldlM]
  | cons k t ih =>
    intro h acc
    obtain ⟨p, hp⟩ := Option.isSome_iff_exists.mp (h k (List.mem_cons_self k t))
    simp only [List.foldlM, hp, Option.map_some']
    refine (ih (fun k2 hk2 => h k2 (List.mem_cons_of_mem _ hk2)) _).trans ?_
    simp only [List.map_cons, List.prod_cons, hp, effectiveTraitProb, Option.getD_some]
    congr 1
    ring

theorem traitProduct_eq_prod (cellId : String) (keys : List String)
    (probabilities : List (String × List (String × ℚ))) (manifest : TraitManifest)
    (h : ∀ k ∈ keys, (lookupTraitProb probabilities k cellId).isSome) :
    traitProduct cellId keys probabilities manifest
      = some ((keys.map (fun k =>
          effectiveTraitProb manifest k
            ((lookupTraitProb probabilities k cellId).getD 0))).prod) := by
  unfold traitProduct
  rw [traitProduct_foldlM_acc cellId probabilities manifest keys h 1]
  simp

theorem traitProduct_eq_none (cellId : String)
    (probabilities : List (String × List (String × ℚ))) (manifest : TraitManifest) :
    ∀ (keys : List String),
      (∃ k ∈ keys, lookupTraitProb probabilities k cellId = none) →
      traitProduct cellId keys probabilities manifest = none := by
  have main : ∀ (keys : List String),
      (∃ k ∈ keys, lookupTraitProb probabilities k cellId = none) →
      ∀ acc : ℚ,
        List.foldlM (fun acc key =>
            (lookupTraitProb probabilities key cellId).map (fun prob =>
              acc * (if isAtusOrHobbyTrait key manifest then dailyToWeekly prob else prob)))
          acc keys = none := by
    intro keys
    induction keys with
    | nil => rintro ⟨k, hk, _⟩; cases hk
    | cons k t ih =>
      rintro ⟨k2, hk2, hnone⟩ acc
      rcases List.mem_cons.mp hk2 with heq | hmem
      · subst heq
        simp [List.foldlM, hnone]
      · cases hl : lookupTraitProb probabilities k cellId with
        | none => simp [List.foldlM, hl]
        | some p =>
          simp only [List.foldlM, hl, Option.map_some', Option.some_bind]
          exact ih ⟨k2, hmem, hnone⟩ _
  intro keys hk
  exact main keys hk 1

theorem engineFold_some {α : Type} (g : α → Option ℚ) (v : α → ℚ → ℚ) :
    ∀ (l : List α), (∀ a ∈ l, (g a).isSome) → ∀ acc : ℚ,
      List.foldlM (fun acc a => (g a).map (fun m => acc + v a m)) acc l
        = some (acc + (l.map (fun a => v a ((g a).getD 0))).sum) := by
  intro l
  induction l with
  | nil => intro _ acc; simp [List.foldlM]
  | cons a t ih =>
    intro h acc
    obtain ⟨m, hm⟩ := Option.isSome_iff_exists.mp (h a (List.mem_cons_self a t))
    simp only [List.foldlM, hm, Option.map_some']
    refine (ih (fun a2 ha2 => h a2 (List.mem_cons_of_mem _ ha2)) _).trans ?_
    simp only [List.map_cons, List.sum_cons, hm, Option.getD_some]
    congr 1
    ring

theorem engineFold_none {α : Type} (g : α → Option ℚ) (v : α → ℚ → ℚ) :
    ∀ (l : List α), (∃ a ∈ l, g a = none) → ∀ acc : ℚ,
      List.foldlM (fun acc a => (g a).map (fun m => acc + v a m)) acc l = none := by
  intro l
  induction l with
  | nil => rintro ⟨a, ha, _⟩; cases ha
  | cons a t ih =>
    rintro ⟨a2, ha2, hnone⟩ acc
    rcases List.mem_cons.mp ha2 with heq | hmem
    · subst heq
      simp [List.foldlM, hnone]
    · cases hl : g a with
      | none => simp [List.foldlM, hl]
      | some m =>
        simp only [List.foldlM, hl, Option.map_some', Option.some_bind]
        exact ih ⟨a2, hmem, hnone⟩ _

theorem engineCellMultiplier_eq (selection : SelectionState) (modeled : ModeledAssets)
    {cell : AcsCell}
    (h : ∀ k ∈ selection.modeledTraits,
      (lookupTraitProb modeled.traitProbabilities k cell.cell_id).isSome) :
    (if selection.modeledTraits.isEmpty then some 1
      else traitProduct cell.cell_id selection.modeledTraits
        modeled.traitProbabilities modeled.manifest)
      = some (cellTraitMultiplier modeled selection.modeledTraits cell) := by
  by_cases he : selection.modeledTraits.isEmpty
  · have : selection.modeledTraits = [] := by simpa [List.isEmpty_iff] using he
    simp [he, cellTraitMultiplier, this]
  · rw [if_neg he]
    rw [traitProduct_eq_prod cell.cell_id selection.modeledTraits
      modeled.traitProbabilities modeled.manifest h]
    rfl

theorem estimatePopulation_run (selection : SelectionState) (modeled : ModeledAssets)
    (population : PopulationData)
    (h : ∀ cell ∈ engineFiltered selection modeled, ∀ k ∈ selection.modeledTraits,
      (lookupTraitProb modeled.traitProbabilities k cell.cell_id).isSome) :
    estimatePopulation selection modeled population
      = some (resultSpec selection modeled population) := by
  have hg : ∀ cell ∈ engineFiltered selection modeled,
      ((fun cell : AcsCell => if selection.modeledTraits.isEmpty then some (1:ℚ)
        else traitProduct cell.cell_id selection.modeledTraits
          modeled.traitProbabilities modeled.manifest) cell).isSome := by
    intro cell hc
    have := engineCellMultiplier_eq selection modeled (h cell hc)
    simp only at this ⊢
    rw [this]
    rfl
  have h1 := engineFold_some
    (fun cell : AcsCell => if selection.modeledTraits.isEmpty then some (1:ℚ)
      else traitProduct cell.cell_id selection.modeledTraits
        modeled.traitProbabilities modeled.manifest)
    (fun cell m => cell.pop * m
      * computeCellEmploymentFactor cell.age_band selection population
      * computeBaseShareFactor selection population)
    (engineFiltered selection modeled) hg 0
  have h2 := engineFold_some
    (fun cell : AcsCell => if selection.modeledTraits.isEmpty then some (1:ℚ)
      else traitProduct cell.cell_id selection.modeledTraits
        modeled.traitProbabilities modeled.manifest)
    (fun cell m => cell.pop * m)
    (engineFiltered selection modeled) hg 0
  have hmapW : (engineFiltered selection modeled).map (fun cell =>
        cell.pop * ((if selection.modeledTraits.isEmpty then some (1:ℚ)
            else traitProduct cell.cell_id selection.modeledTraits
              modeled.traitProbabilities modeled.manifest).getD 0)
          * computeCellEmploymentFactor cell.age_band selection population
          * computeBaseShareFactor selection population)
      = (engineFiltered selection modeled).map
          (cellContribution selection modeled population) := by
    apply List.map_congr_left
    intro cell hc
    rw [engineCellMultiplier_eq selection modeled (h cell hc)]
    rfl
  have hmapB : (engineFiltered selection modeled).map (fun cell =>
        cell.pop * ((if selection.modeledTraits.isEmpty then some (1:ℚ)
            else traitProduct cell.cell_id selection.modeledTraits
              modeled.traitProbabilities modeled.manifest).getD 0))
      = (engineFiltered selection modeled).map (fun cell =>
          cell.pop * cellTraitMultiplier modeled selection.modeledTraits cell) := by
    apply List.map_congr_left
    intro cell hc
    rw [engineCellMultiplier_eq selection modeled (h cell hc)]
    rfl
  simp only [estimatePopulation]
  rw [show (filterCells modeled.acsCells.cells selection
      (computeEffectiveMinAge
        (List.filter (fun t => decide (t.key ∈ selection.modeledTraits))
          modeled.manifest.traits)))
    = engineFiltered selection modeled from rfl]
  rw [h1, h2]
  simp only [zero_add]
  rw [hmapW, hmapB]
  rfl

theorem estimatePopulation_missing (selection : SelectionState) (modeled : ModeledAssets)
    (population : PopulationData)
    (hne : selection.modeledTraits ≠ [])
    (hmiss : ∃ cell ∈ engineFiltered selection modeled, ∃ k ∈ selection.modeledTraits,
      lookupTraitProb modeled.traitProbabilities k cell.cell_id = none) :
    estimatePopulation selection modeled population = none := by
  obtain ⟨cell, hc, k, hk, hnone⟩ := hmiss
  have hgnone : (fun cell : AcsCell => if selection.modeledTraits.isEmpty then some (1:ℚ)
      else traitProduct cell.cell_id selection.modeledTraits
        modeled.traitProbabilities modeled.manifest) cell = none := by
    simp only
    rw [if_neg (by simpa [List.isEmpty_iff] using hne)]
    exact traitProduct_eq_none cell.cell_id modeled.traitProbabilities modeled.manifest
      selection.modeledTraits ⟨k, hk, hnone⟩
  have h1 := engineFold_none
    (fun cell : AcsCell => if selection.modeledTraits.isEmpty then some (1:ℚ)
      else traitProduct cell.cell_id selection.modeledTraits
        modeled.traitProbabilities modeled.manifest)
    (fun cell m => cell.pop * m
      * computeCellEmploymentFactor cell.age_band selection population
      * computeBaseShareFactor selection population)
    (engineFiltered selection modeled) ⟨cell, hc, hgnone⟩ 0
  simp only [estimatePopulation]
  rw [show (filterCells modeled.acsCells.cells selection
      (computeEffectiveMinAge
        (List.filter (fun t => decide (t.key ∈ selection.modeledTraits))
          modeled.manifest.traits)))
    = engineFiltered selection modeled from rfl]
  rw [h1]
  rfl

theorem le_foldr_max {x : ℕ} : ∀ {l : List ℕ}, x ∈ l → x ≤ l.foldr max 0 := by
  intro l
  induction l with
  | nil => intro h; cases h
  | cons a t ih =>
    intro h
    rcases List.mem_cons.mp h with h1 | h2
    · subst h1
      exact le_max_left x _
    · exact le_trans (ih h2) (le_max_right a _)

theorem foldr_max_le {b : ℕ} : ∀ {l : List ℕ}, (∀ x ∈ l, x ≤ b) → l.foldr max 0 ≤ b := by
  intro l
  induction l with
  | nil => intro _; simp
  | cons a t ih =>
    intro h
    simp only [List.foldr_cons]
    exact max_le (h a (List.mem_cons_self a t)) (ih (fun x hx => h x (List.mem_cons_of_mem _ hx)))

theorem foldr_max_mem : ∀ (l : List ℕ), l ≠ [] → l.foldr max 0 ∈ l := by
  intro l
  induction l with
  | nil => intro h; exact absurd rfl h
  | cons a t ih =>
    intro _
    simp only [List.foldr_cons]
    rcases le_total (t.foldr max 0) a with hle | hle
    · rw [max_eq_left hle]
      exact List.mem_cons_self a t
    · rw [max_eq_right hle]
      cases t with
      | nil =>
        have ha : a = 0 := Nat.le_zero.mp (by simpa using hle)
        simp [ha]
      | cons b t2 => exact List.mem_cons_of_mem a (ih (by simp))

theorem computeEffectiveMinAge_eq_foldr (traits : List TraitManifestEntry) :
    computeEffectiveMinAge traits = (traits.map (fun t => t.minAge)).foldr max 0 := by
  cases traits <;> rfl

theorem minAge_le_computeEffectiveMinAge {traits : List TraitManifestEntry}
    {t : TraitManifestEntry} (h : t ∈ traits) :
    t.minAge ≤ computeEffectiveMinAge traits := by
  rw [computeEffectiveMinAge_eq_foldr]
  exact le_foldr_max (List.mem_map_of_mem _ h)

theorem computeEffectiveMinAge_mem {traits : List TraitManifestEntry} (h : traits ≠ []) :
    ∃ t ∈ traits, computeEffectiveMinAge traits = t.minAge := by
  rw [computeEffectiveMinAge_eq_foldr]
  have hne : traits.map (fun t => t.minAge) ≠ [] := by simpa using h
  obtain ⟨t, ht, heq⟩ := List.mem_map.mp (foldr_max_mem _ hne)
  exact ⟨t, ht, heq.symm⟩

theorem filterCells_mem (cells : List AcsCell) (sel : SelectionState) (m : ℕ)
    (c : AcsCell) :
    c ∈ filterCells cells sel m ↔
      c ∈ cells ∧ m ≤ AGE_BAND_MIN_AGES c.age_band
        ∧ (sel.region = [] ∨ c.region ∈ sel.region)
        ∧ (sel.sex = [] ∨ c.sex ∈ sel.sex)
        ∧ (sel.ageBand = [] ∨ (c.age_band ∈ sel.ageBand ∧ m ≤ AGE_BAND_MIN_AGES c.age_band)) := by
  unfold filterCells
  rw [List.mem_filter]
  by_cases h1 : m ≤ AGE_BAND_MIN_AGES c.age_band <;>
    by_cases h2 : sel.region = [] <;>
      by_cases h3 : sel.sex = [] <;>
        by_cases h4 : sel.ageBand = [] <;>
          simp [h1, h2, h3, h4, isAgeBandEligible, ge_iff_le, List.isEmpty_iff, and_assoc]

theorem filterCells_sublist (cells : List AcsCell) (sel sel2 : SelectionState)
    {m m2 : ℕ} (hm : m ≤ m2)
    (hr : sel2.region = sel.region) (hs : sel2.sex = sel.sex)
    (ha : sel2.ageBand = sel.ageBand) :
    List.Sublist (filterCells cells sel2 m2) (filterCells cells sel m) := by
  unfold filterCells
  apply List.monotone_filter_right
  intro c hc
  have hmem2 : c ∈ filterCells [c] sel2 m2 := by
    unfold filterCells
    exact List.mem_filter.mpr ⟨List.mem_singleton_self c, hc⟩
  rw [filterCells_mem] at hmem2
  obtain ⟨-, he, hR, hS, hA⟩ := hmem2
  have hmem : c ∈ filterCells [c] sel m := by
    rw [filterCells_mem]
    rw [hr] at hR
    rw [hs] at hS
    rw [ha] at hA
    refine ⟨List.mem_singleton_self c, le_trans hm he, hR, hS, ?_⟩
    rcases hA with hA | ⟨hA1, hA2⟩
    · exact Or.inl hA
    · exact Or.inr ⟨hA1, le_trans hm hA2⟩
  unfold filterCells at hmem
  exact (List.mem_filter.mp hmem).2

theorem list_prod_unit : ∀ {l : List ℚ}, (∀ x ∈ l, 0 ≤ x ∧ x ≤ 1) →
    0 ≤ l.prod ∧ l.prod ≤ 1 := by
  intro l
  induction l with
  | nil => intro _; norm_num
  | cons a t ih =>
    intro h
    obtain ⟨ha0, ha1⟩ := h a (List.mem_cons_self a t)
    obtain ⟨ht0, ht1⟩ := ih (fun x hx => h x (List.mem_cons_of_mem _ hx))
    simp only [List.prod_cons]
    constructor
    · exact mul_nonneg ha0 ht0
    · calc a * t.prod ≤ 1 * 1 := mul_le_mul ha1 ht1 ht0 (by norm_num)
      _ = 1 := by norm_num

theorem lookupTraitProb_getD_unit {probabilities : List (String × List (String × ℚ))}
    (hprob : ∀ e ∈ probabilities, ∀ kv ∈ e.2, 0 ≤ kv.2 ∧ kv.2 ≤ 1)
    (key cellId : String) :
    0 ≤ (lookupTraitProb probabilities key cellId).getD 0
      ∧ (lookupTraitProb probabilities key cellId).getD 0 ≤ 1 := by
  unfold lookupTraitProb
  cases h1 : List.lookup key probabilities with
  | none => simp
  | some table =>
    cases h2 : List.lookup cellId table with
    | none => simp [h2]
    | some p =>
      have hmem1 := lookup_mem h1
      have hmem2 := lookup_mem h2
      have hb := hprob (key, table) hmem1 (cellId, p) hmem2
      simpa [h2] using hb

theorem effectiveTraitProb_unit {manifest : TraitManifest} {p : ℚ}
    (hp : 0 ≤ p ∧ p ≤ 1) (key : String) :
    0 ≤ effectiveTraitProb manifest key p ∧ effectiveTraitProb manifest key p ≤ 1 := by
  unfold effectiveTraitProb
  by_cases h : isAtusOrHobbyTrait key manifest
  · simp only [h, if_true]
    exact dailyToWeekly_unit p
  · simp only [h, if_false]
    exact hp

theorem cellTraitMultiplier_unit {modeled : ModeledAssets}
    (hprob : ∀ e ∈ modeled.traitProbabilities, ∀ kv ∈ e.2, 0 ≤ kv.2 ∧ kv.2 ≤ 1)
    (traitKeys : List String) (cell : AcsCell) :
    0 ≤ cellTraitMultiplier modeled traitKeys cell
      ∧ cellTraitMultiplier modeled traitKeys cell ≤ 1 := by
  unfold cellTraitMultiplier
  apply list_prod_unit
  intro x hx
  obtain ⟨k, -, rfl⟩ := List.mem_map.mp hx
  exact effectiveTraitProb_unit (lookupTraitProb_getD_unit hprob k cell.cell_id) k

theorem cellContribution_nonneg {selection : SelectionState} {modeled : ModeledAssets}
    {population : PopulationData}
    (hprob : ∀ e ∈ modeled.traitProbabilities, ∀ kv ∈ e.2, 0 ≤ kv.2 ∧ kv.2 ≤ 1)
    (hemp : ∀ kv ∈ population.employment, 0 ≤ kv.2.share ∧ kv.2.share ≤ 1)
    {cell : AcsCell} (hpop : 0 ≤ cell.pop) :
    0 ≤ cellContribution selection modeled population cell := by
  unfold cellContribution
  have h1 := cellTraitMultiplier_unit hprob selection.modeledTraits cell
  have h2 := computeCellEmploymentFactor_unit hemp cell.age_band selection
  have h3 := computeBaseShareFactor_unit selection population
  exact mul_nonneg (mul_nonneg (mul_nonneg hpop h1.1) h2.1) h3.1

theorem jsRound_mono {x y : ℚ} (h : x ≤ y) : jsRound x ≤ jsRound y := by
  unfold jsRound
  exact Int.floor_le_floor (by linarith)

theorem engineMinAge_mono (sel sel2 : SelectionState) (modeled : ModeledAssets)
    (hsub : ∀ k ∈ sel.modeledTraits, k ∈ sel2.modeledTraits) :
    engineMinAge sel modeled ≤ engineMinAge sel2 modeled := by
  unfold engineMinAge selectedManifestTraits
  rw [computeEffectiveMinAge_eq_foldr, computeEffectiveMinAge_eq_foldr]
  apply foldr_max_le
  intro x hx
  obtain ⟨t, ht, rfl⟩ := List.mem_map.mp hx
  apply le_foldr_max
  apply List.mem_map_of_mem
  rw [List.mem_filter] at ht ⊢
  refine ⟨ht.1, ?_⟩
  have := of_decide_eq_true ht.2
  exact decide_eq_true (hsub _ this)

/-- Witness data: an adult cell of the backbone. -/
def wCell1 : AcsCell :=
  ⟨"c1", RegionKey.northeast, SexKey.male, AgeBandKey.a18_24, 10⟩

/-- Witness data: a child cell of the backbone. -/
def wCell2 : AcsCell :=
  ⟨"c2", RegionKey.south, SexKey.female, AgeBandKey.a0_14, 20⟩

/-- Witness data: manifest entry of an 18+ health trait. -/
def wT1 : TraitManifestEntry :=
  ⟨"t1", TraitGroup.Health, "BRFSS", 18, RegionSupport.modeled⟩

/-- Witness data: manifest entry of a 15+ daily-diary hobby trait. -/
def wT2 : TraitManifestEntry :=
  ⟨"t2", TraitGroup.Hobbies, "ATUS", 15, RegionSupport.national_only⟩

/-- Witness data: manifest entry of an all-ages trait whose table is
missing the entry for cell `c2`. -/
def wT0 : TraitManifestEntry :=
  ⟨"t0", TraitGroup.Other, "NHIS", 0, RegionSupport.modeled⟩

/-- Witness data: a small modeled-assets bundle. -/
def wModeled : ModeledAssets :=
  ⟨⟨30, [wCell1, wCell2]⟩, ⟨[wT1, wT2, wT0]⟩,
   [("t1", [("c1", 1/2), ("c2", 1/4)]),
    ("t2", [("c1", 1/10), ("c2", 1/10)]),
    ("t0", [("c1", 1/3)])]⟩

/-- Witness data: share tables. -/
def wPop : PopulationData :=
  ⟨[("white", ⟨1, 1/2⟩)], [], [], [], [], [], [("employed", ⟨1, 3/5⟩)]⟩

/-- Witness data: the blank selection. -/
def wSelEmpty : SelectionState :=
  ⟨[], [], [], [], [], [], [], [], [], [], []⟩

/-- Witness data: selection of the 18+ trait `t1`. -/
def wSelT1 : SelectionState :=
  { wSelEmpty with modeledTraits := ["t1"] }

/-- Witness data: selection of the all-ages trait `t0` with the incomplete
probability table. -/
def wSelT0 : SelectionState :=
  { wSelEmpty with modeledTraits := ["t0"] }

/-- Witness data: selection of an employment key. -/
def wSelEmp : SelectionState :=
  { wSelEmpty with employment := ["employed"] }

/-- C3: a cell is in the filtered set iff it is in the backbone, its
age-band minimum age is at least the effective minimum age, its region and
sex are among the chosen keys (all pass when a chosen set is empty), and,
when age bands are chosen, its band is both chosen and itself
age-eligible; and the effective minimum age is the maximum `minAge` over
the selected traits (0 when none are selected). -/
theorem claim_C3 :
    (∀ (cells : List AcsCell) (selection : SelectionState) (m : ℕ) (c : AcsCell),
        c ∈ filterCells cells selection m ↔
          c ∈ cells ∧ m ≤ AGE_BAND_MIN_AGES c.age_band
            ∧ (selection.region = [] ∨ c.region ∈ selection.region)
            ∧ (selection.sex = [] ∨ c.sex ∈ selection.sex)
            ∧ (selection.ageBand = []
                ∨ (c.age_band ∈ selection.ageBand ∧ m ≤ AGE_BAND_MIN_AGES c.age_band)))
    ∧ computeEffectiveMinAge [] = 0
    ∧ (∀ traits : List TraitManifestEntry, ∀ t ∈ traits,
        t.minAge ≤ computeEffectiveMinAge traits)
    ∧ (∀ traits : List TraitManifestEntry, traits ≠ [] →
        ∃ t ∈ traits, computeEffectiveMinAge traits = t.minAge) :=
  ⟨filterCells_mem, rfl,
   fun _ _ ht => minAge_le_computeEffectiveMinAge ht,
   fun _ h => computeEffectiveMinAge_mem h⟩

/-- Witness for C3 at concrete inputs: the adult cell passes an 18+ filter
with a blank selection, and the maximum over a concrete manifest pair is
attained by `t1`. -/
theorem claim_C3_witness :
    wCell1 ∈ filterCells [wCell1, wCell2] wSelEmpty 18
      ∧ (∃ t ∈ [wT1, wT2], computeEffectiveMinAge [wT1, wT2] = t.minAge) := by
  constructor
  · exact (claim_C3.1 [wCell1, wCell2] wSelEmpty 18 wCell1).mpr
      ⟨List.mem_cons_self wCell1 [wCell2],
       by decide, Or.inl rfl, Or.inl rfl, Or.inl rfl⟩
  · exact claim_C3.2.2.2 [wT1, wT2] (by simp)

/-- C4: the dimension probability of a non-empty chosen set is
`1 - prod (1 - share)`, an empty set gives 1, and the base share factor is
the clamped product of the six share-level dimension probabilities (race,
children, income, education, household type, vehicle access), excluding
employment. -/
theorem claim_C4 :
    (∀ shares : List (String × CategoryStats), computeDimensionProbability [] shares = 1)
    ∧ (∀ (selected : List String) (shares : List (String × CategoryStats)),
        selected ≠ [] →
        computeDimensionProbability selected shares
          = 1 - (selected.map (fun key => 1 - shareOf shares key)).prod)
    ∧ (∀ (selection : SelectionState) (population : PopulationData),
        computeBaseShareFactor selection population
          = clamp (computeDimensionProbability selection.race population.race
              * computeDimensionProbability selection.children population.children
              * computeDimensionProbability selection.income population.income
              * computeDimensionProbability selection.education population.education
              * computeDimensionProbability selection.householdType population.householdType
              * computeDimensionProbability selection.transport population.transport) 0 1) := by
  refine ⟨computeDimensionProbability_nil, computeDimensionProbability_closed, ?_⟩
  intro selection population
  simp only [computeBaseShareFactor, List.foldl_cons, List.foldl_nil]
  congr 1
  ring

/-- Witness for C4 at a concrete input: the union formula evaluated for a
one-key selection over a one-entry share table. -/
theorem claim_C4_witness :
    computeDimensionProbability ["white"] [("white", (⟨1, 1/2⟩ : CategoryStats))]
      = 1 - (List.map (fun key => 1 - shareOf [("white", (⟨1, 1/2⟩ : CategoryStats))] key)
          ["white"]).prod :=
  claim_C4.2.1 ["white"] [("white", (⟨1, 1/2⟩ : CategoryStats))] (by simp)

/-- C5: the employment factor is 1 when no employment key is chosen,
otherwise it is the band's eligibility factor times the employment union
probability; the eligibility factor is 0 for the fully-under-16 band, 2/3
for the straddling 15-17 band and 1 for all other bands, so a cell of the
fully-ineligible band contributes employment factor 0 whenever an
employment filter is active. -/
theorem claim_C5 :
    (∀ (selection : SelectionState) (population : PopulationData) (band : AgeBandKey),
        selection.employment = [] → computeCellEmploymentFactor band selection population = 1)
    ∧ (∀ (selection : SelectionState) (population : PopulationData) (band : AgeBandKey),
        selection.employment ≠ [] →
        computeCellEmploymentFactor band selection population
          = getEmploymentEligibilityFactor band
            * computeDimensionProbability selection.employment population.employment)
    ∧ getEmploymentEligibilityFactor AgeBandKey.a0_14 = 0
    ∧ getEmploymentEligibilityFactor AgeBandKey.a15_17 = 2 / 3
    ∧ (∀ band : AgeBandKey, band ≠ AgeBandKey.a0_14 → band ≠ AgeBandKey.a15_17 →
        getEmploymentEligibilityFactor band = 1)
    ∧ (∀ (selection : SelectionState) (population : PopulationData),
        selection.employment ≠ [] →
        computeCellEmploymentFactor AgeBandKey.a0_14 selection population = 0) := by
  refine ⟨?_, ?_, rfl, rfl, ?_, ?_⟩
  · intro selection population band h
    simp [computeCellEmploymentFactor, h]
  · intro selection population band h
    simp only [computeCellEmploymentFactor]
    rw [if_neg (by simpa [List.isEmpty_iff] using h)]
    by_cases hz : getEmploymentEligibilityFactor band = 0
    · simp [hz]
    · rw [if_neg hz]
  · intro band h1 h2
    cases band <;> simp_all [getEmploymentEligibilityFactor, EMPLOYMENT_ELIGIBILITY_FACTOR]
  · intro selection population h
    simp [computeCellEmploymentFactor, List.isEmpty_iff, h,
      getEmploymentEligibilityFactor, EMPLOYMENT_ELIGIBILITY_FACTOR]

/-- Witness for C5 at concrete inputs: with the `employed` key chosen, the
under-16 cell band gives factor 0 and the adult band follows the
eligibility-times-union form. -/
theorem claim_C5_witness :
    computeCellEmploymentFactor AgeBandKey.a0_14 wSelEmp wPop = 0
      ∧ computeCellEmploymentFactor AgeBandKey.a18_24 wSelEmp wPop
          = getEmploymentEligibilityFactor AgeBandKey.a18_24
            * computeDimensionProbability wSelEmp.employment wPop.employment :=
  ⟨claim_C5.2.2.2.2.2 wSelEmp wPop (by simp [wSelEmp, wSelEmpty]),
   claim_C5.2.1 wSelEmp wPop AgeBandKey.a18_24 (by simp [wSelEmp, wSelEmpty])⟩

/-- C7: the daily-to-weekly transform is the clamped `1 - (1 - p)^7` with
clamped input, it fixes 0 and 1, never decreases a probability in [0,1],
and maps 0.10 to approximately 0.5217. -/
theorem claim_C7 :
    (∀ p : ℚ, dailyToWeekly p = clamp (1 - (1 - clamp p 0 1) ^ 7) 0 1)
    ∧ dailyToWeekly 0 = 0
    ∧ dailyToWeekly 1 = 1
    ∧ (∀ p : ℚ, 0 ≤ p → p ≤ 1 → p ≤ dailyToWeekly p)
    ∧ |dailyToWeekly (1 / 10) - 5217 / 10000| < 1 / 10000 := by
  refine ⟨?_, by norm_num [dailyToWeekly], by norm_num [dailyToWeekly], ?_, ?_⟩
  · intro p
    simp only [dailyToWeekly, clamp]
    rw [min_comm, max_comm, min_comm 1 (max 0 p), max_comm 0 p]
  · intro p h0 h1
    simp only [dailyToWeekly]
    rw [max_eq_left h0, min_eq_left h1]
    have hq0 : (0:ℚ) ≤ 1 - p := by linarith
    have hq1 : 1 - p ≤ 1 := by linarith
    have hpow : (1 - p) ^ 7 ≤ 1 - p := pow_le_of_le_one hq0 hq1 (by norm_num)
    have hW : p ≤ 1 - (1 - p) ^ 7 := by linarith
    exact le_min (le_trans hW (le_max_left _ 0)) h1
  · have hval : dailyToWeekly (1 / 10) = 5217031 / 10000000 := by
      norm_num [dailyToWeekly, max_def, min_def]
    rw [hval, abs_sub_lt_iff]
    constructor <;> norm_num

/-- Witness for C7 at a concrete input: the monotonicity part applied at
p = 1/2. -/
theorem claim_C7_witness : (1:ℚ) / 2 ≤ dailyToWeekly (1 / 2) :=
  claim_C7.2.2.2.1 (1 / 2) (by norm_num) (by norm_num)

/-- C1: when every selected trait has a probability entry for every
filtered cell, the engine returns an estimate whose `estimated` field is
the rounding of the sum, over exactly the filtered cells, of
population x trait multiplier x employment factor x base share factor,
the trait multiplier being the product of the selected traits' (possibly
daily-to-weekly transformed) per-cell probabilities (1 with no trait). -/
theorem claim_C1 (selection : SelectionState) (modeled : ModeledAssets)
    (population : PopulationData)
    (h : ∀ cell ∈ engineFiltered selection modeled, ∀ k ∈ selection.modeledTraits,
      (lookupTraitProb modeled.traitProbabilities k cell.cell_id).isSome) :
    ∃ r, estimatePopulation selection modeled population = some r ∧
      r.estimated = jsRound (((engineFiltered selection modeled).map (fun cell =>
        cell.pop * cellTraitMultiplier modeled selection.modeledTraits cell
          * computeCellEmploymentFactor cell.age_band selection population
          * computeBaseShareFactor selection population)).sum) :=
  ⟨resultSpec selection modeled population,
   estimatePopulation_run selection modeled population h, rfl⟩

/-- Witness for C1 at concrete inputs: the 18+ trait `t1` selected over
the two-cell backbone. -/
theorem claim_C1_witness :
    ∃ r, estimatePopulation wSelT1 wModeled wPop = some r ∧
      r.estimated = jsRound (((engineFiltered wSelT1 wModeled).map (fun cell =>
        cell.pop * cellTraitMultiplier wModeled wSelT1.modeledTraits cell
          * computeCellEmploymentFactor cell.age_band wSelT1 wPop
          * computeBaseShareFactor wSelT1 wPop)).sum) :=
  claim_C1 wSelT1 wModeled wPop (by decide)

/-- C6: with at least one modeled trait selected, a missing probability
entry for a filtered cell makes the estimate call fail (no default is
substituted); conversely when every selected trait has an entry for every
filtered cell, the call returns an estimate. -/
theorem claim_C6 (selection : SelectionState) (modeled : ModeledAssets)
    (population : PopulationData) :
    (selection.modeledTraits ≠ [] →
      (∃ cell ∈ engineFiltered selection modeled, ∃ k ∈ selection.modeledTraits,
        lookupTraitProb modeled.traitProbabilities k cell.cell_id = none) →
      estimatePopulation selection modeled population = none)
    ∧ ((∀ cell ∈ engineFiltered selection modeled, ∀ k ∈ selection.modeledTraits,
        (lookupTraitProb modeled.traitProbabilities k cell.cell_id).isSome) →
      ∃ r, estimatePopulation selection modeled population = some r) :=
  ⟨fun hne hmiss => estimatePopulation_missing selection modeled population hne hmiss,
   fun h => ⟨resultSpec selection modeled population,
     estimatePopulation_run selection modeled population h⟩⟩

/-- Witness for C6 at concrete inputs: selecting `t0` (whose table lacks
cell `c2`) fails, selecting `t1` (complete on its universe) succeeds. -/
theorem claim_C6_witness :
    estimatePopulation wSelT0 wModeled wPop = none
      ∧ ∃ r, estimatePopulation wSelT1 wModeled wPop = some r :=
  ⟨(claim_C6 wSelT0 wModeled wPop).1 (by decide) (by decide),
   (claim_C6 wSelT1 wModeled wPop).2 (by decide)⟩

theorem cdp_unknown_zero (shares : List (String × CategoryStats))
    (selected : List String) (hne : selected ≠ [])
    (hall : ∀ k ∈ selected, List.lookup k shares = none) :
    computeDimensionProbability selected shares = 0 := by
  rw [computeDimensionProbability_closed _ _ hne]
  have hp : (selected.map (fun key => 1 - shareOf shares key)).prod = 1 := by
    apply List.prod_eq_one
    intro x hx
    obtain ⟨k, hk, rfl⟩ := List.mem_map.mp hx
    simp [shareOf, hall k hk]
  rw [hp]
  norm_num

/-- C10: a selected key with no entry in a share table is treated as
share 0 (complement factor 1): it never raises the union probability and
adding it to a non-empty selection leaves the probability unchanged; a
dimension whose selected keys are all unknown has probability 0, and such
a race selection forces the engine's estimated count to 0. -/
theorem claim_C10 :
    (∀ (shares : List (String × CategoryStats)) (key : String) (selected : List String),
        List.lookup key shares = none →
        computeDimensionProbability (key :: selected) shares
            ≤ computeDimensionProbability selected shares
          ∧ (selected ≠ [] →
            computeDimensionProbability (key :: selected) shares
              = computeDimensionProbability selected shares))
    ∧ (∀ (shares : List (String × CategoryStats)) (selected : List String),
        selected ≠ [] → (∀ k ∈ selected, List.lookup k shares = none) →
        computeDimensionProbability selected shares = 0)
    ∧ (∀ (selection : SelectionState) (modeled : ModeledAssets)
          (population : PopulationData),
        selection.race ≠ [] →
        (∀ k ∈ selection.race, List.lookup k population.race = none) →
        (∀ cell ∈ engineFiltered selection modeled, ∀ k ∈ selection.modeledTraits,
          (lookupTraitProb modeled.traitProbabilities k cell.cell_id).isSome) →
        ∃ r, estimatePopulation selection modeled population = some r
          ∧ r.estimated = 0) := by
  refine ⟨?_, cdp_unknown_zero, ?_⟩
  · intro shares key selected hnone
    have heq : selected ≠ [] →
        computeDimensionProbability (key :: selected) shares
          = computeDimensionProbability selected shares := by
      intro hne
      rw [computeDimensionProbability_closed (key :: selected) _ (by simp),
        computeDimensionProbability_closed selected _ hne]
      simp [shareOf, hnone]
    refine ⟨?_, heq⟩
    cases hs : selected with
    | nil =>
      rw [computeDimensionProbability_closed _ _ (by simp)]
      simp [shareOf, hnone, computeDimensionProbability_nil]
    | cons a t =>
      rw [← hs, heq (by simp [hs])]
  · intro selection modeled population hne hall hsucc
    refine ⟨resultSpec selection modeled population,
      estimatePopulation_run selection modeled population hsucc, ?_⟩
    have hcdp : computeDimensionProbability selection.race population.race = 0 :=
      cdp_unknown_zero population.race selection.race hne hall
    have hbase : computeBaseShareFactor selection population = 0 := by
      simp only [computeBaseShareFactor, List.foldl_cons, List.foldl_nil]
      rw [hcdp]
      norm_num [clamp]
    have hws : weightedSumSpec selection modeled population = 0 := by
      unfold weightedSumSpec
      apply List.sum_eq_zero
      intro x hx
      obtain ⟨cell, -, rfl⟩ := List.mem_map.mp hx
      unfold cellContribution
      rw [hbase]
      ring
    show jsRound (weightedSumSpec selection modeled population) = 0
    rw [hws]
    norm_num [jsRound, Int.floor_eq_iff]

/-- Witness data: a selection of one race key that is absent from the
share table. -/
def cSelUnknown : SelectionState :=
  { wSelEmpty with race := ["mystery"] }

/-- Witness for C10 at concrete inputs: an unknown race key forces the
estimate to 0. -/
theorem claim_C10_witness :
    ∃ r, estimatePopulation cSelUnknown wModeled wPop = some r
      ∧ r.estimated = 0 :=
  claim_C10.2.2 cSelUnknown wModeled wPop (by decide) (by decide) (by decide)

/-- Counterexample data: share table with a 1/4 race share, so the
weighted sum is not an integer. -/
def cPop : PopulationData :=
  ⟨[("white", ⟨1, 1/4⟩)], [], [], [], [], [], []⟩

/-- Counterexample data: selection of that race key. -/
def cSelRace : SelectionState :=
  { wSelEmpty with race := ["white"] }

/-- Counterexample for C2: the engine divides the UNROUNDED weighted sum
by the denominator.  Here the weighted sum is 15/2 over denominator 30,
so the returned probability is 1/4, while the claim's formula
`clamp (estimatedCount / denominatorPopulation)` gives
`clamp (8 / 30) = 4/15`, a different value. -/
theorem claim_C2_counterexample :
    (estimatePopulation cSelRace wModeled cPop).map
        (fun r => (r.probability, clamp ((r.estimated : ℚ) / r.denominatorPop) 0 1))
      = some ((1/4 : ℚ), (4/15 : ℚ))
    ∧ ((1/4 : ℚ)) ≠ 4/15 := by
  constructor
  · have hrun := estimatePopulation_run cSelRace wModeled cPop (by decide)
    have hfil : engineFiltered cSelRace wModeled = [wCell1, wCell2] := by decide
    have hbase : computeBaseShareFactor cSelRace cPop = 1/4 := by
      simp only [computeBaseShareFactor, List.foldl_cons, List.foldl_nil]
      norm_num [computeDimensionProbability, shareOf, cSelRace, wSelEmpty, cPop,
        clamp, List.lookup, max_def, min_def]
    have hws : weightedSumSpec cSelRace wModeled cPop = 15/2 := by
      rw [weightedSumSpec, hfil]
      simp only [List.map_cons, List.map_nil, List.sum_cons, List.sum_nil,
        cellContribution]
      rw [hbase]
      norm_num [cellTraitMultiplier, cSelRace, wSelEmpty,
        computeCellEmploymentFactor, wCell1, wCell2]
    have hden : engineDenominator cSelRace wModeled = 30 := by
      have hma : engineMinAge cSelRace wModeled = 0 := by decide
      rw [engineDenominator, if_pos hma]
      rfl
    have hprob : (resultSpec cSelRace wModeled cPop).probability = 1/4 := by
      simp only [resultSpec]
      rw [hden, hws]
      norm_num [clamp, max_def, min_def]
    have hest : (resultSpec cSelRace wModeled cPop).estimated = 8 := by
      simp only [resultSpec]
      rw [hws]
      norm_num [jsRound, Int.floor_eq_iff]
    have hdenf : (resultSpec cSelRace wModeled cPop).denominatorPop = 30 := by
      simp only [resultSpec]
      exact hden
    rw [hrun]
    simp only [Option.map_some']
    rw [hprob, hest, hdenf]
    norm_num [clamp, max_def, min_def]
  · norm_num

/-- C2 as amended: the probability is the clamped quotient of the
UNROUNDED weighted sum by the denominator population (not of the rounded
estimated count); the denominator is the total of the age-eligible cells
(the stated dataset total when the effective minimum age is 0); and a zero
denominator gives probability 0 rather than a division error. -/
theorem claim_C2_amended (selection : SelectionState) (modeled : ModeledAssets)
    (population : PopulationData)
    (h : ∀ cell ∈ engineFiltered selection modeled, ∀ k ∈ selection.modeledTraits,
      (lookupTraitProb modeled.traitProbabilities k cell.cell_id).isSome) :
    ∃ r, estimatePopulation selection modeled population = some r ∧
      r.denominatorPop = (if engineMinAge selection modeled = 0
          then modeled.acsCells.total_pop
          else ((modeled.acsCells.cells.filter (fun cell =>
            isAgeBandEligible cell.age_band (engineMinAge selection modeled))).map
              (fun cell => cell.pop)).sum)
      ∧ r.probability = clamp (if r.denominatorPop = 0 then 0
          else weightedSumSpec selection modeled population / r.denominatorPop) 0 1
      ∧ (r.denominatorPop = 0 → r.probability = 0) := by
  refine ⟨resultSpec selection modeled population,
    estimatePopulation_run selection modeled population h, ?_, rfl, ?_⟩
  · show engineDenominator selection modeled = _
    rw [engineDenominator]
    by_cases h0 : engineMinAge selection modeled = 0
    · rw [if_pos h0, if_pos h0]
    · rw [if_neg h0, if_neg h0, computeDenominatorPop_eq_sum]
  · intro h0
    show clamp (if engineDenominator selection modeled = 0 then 0
      else weightedSumSpec selection modeled population
        / engineDenominator selection modeled) 0 1 = 0
    have h0' : engineDenominator selection modeled = 0 := h0
    rw [if_pos h0']
    norm_num [clamp]

/-- Witness for the amended C2 at concrete inputs. -/
theorem claim_C2_amended_witness :
    ∃ r, estimatePopulation wSelT1 wModeled wPop = some r ∧
      r.denominatorPop = (if engineMinAge wSelT1 wModeled = 0
          then wModeled.acsCells.total_pop
          else ((wModeled.acsCells.cells.filter (fun cell =>
            isAgeBandEligible cell.age_band (engineMinAge wSelT1 wModeled))).map
              (fun cell => cell.pop)).sum)
      ∧ r.probability = clamp (if r.denominatorPop = 0 then 0
          else weightedSumSpec wSelT1 wModeled wPop / r.denominatorPop) 0 1
      ∧ (r.denominatorPop = 0 → r.probability = 0) :=
  claim_C2_amended wSelT1 wModeled wPop (by decide)

/-- Modelled from the spec: the spec's Trait Manifest Entry carries a
`temporalBasis: "instant" | "daily_diary"` flag that is absent from the
source's manifest type; the source encodes a daily-diary basis as the
trait having group `Hobbies` or a source string mentioning ATUS.  This
predicate is that flag, read off a manifest entry. -/
def temporalBasisIsDailyDiary (t : TraitManifestEntry) : Bool :=
  t.group == TraitGroup.Hobbies || sourceMentionsATUS t.source

/-- C8: for a trait key whose manifest entry is found, the daily-to-weekly
transform is applied iff the entry's temporal basis is daily-diary;
instant-basis traits contribute their stored probability unchanged, and
the trait product multiplies exactly these effective probabilities. -/
theorem claim_C8 :
    ∀ (manifest : TraitManifest) (k : String) (t : TraitManifestEntry),
      manifest.traits.find? (fun e => e.key == k) = some t →
      (isAtusOrHobbyTrait k manifest = temporalBasisIsDailyDiary t)
      ∧ (∀ p : ℚ, effectiveTraitProb manifest k p
          = if temporalBasisIsDailyDiary t then dailyToWeekly p else p)
      ∧ (temporalBasisIsDailyDiary t = false →
          ∀ p : ℚ, effectiveTraitProb manifest k p = p)
      ∧ (∀ (cellId : String) (keys : List String)
            (probabilities : List (String × List (String × ℚ))),
          (∀ k2 ∈ keys, (lookupTraitProb probabilities k2 cellId).isSome) →
          traitProduct cellId keys probabilities manifest
            = some ((keys.map (fun k2 => effectiveTraitProb manifest k2
                ((lookupTraitProb probabilities k2 cellId).getD 0))).prod)) := by
  intro manifest k t hfind
  have hiff : isAtusOrHobbyTrait k manifest = temporalBasisIsDailyDiary t := by
    simp only [isAtusOrHobbyTrait, hfind, temporalBasisIsDailyDiary]
  refine ⟨hiff, ?_, ?_, ?_⟩
  · intro p
    simp only [effectiveTraitProb, hiff]
  · intro hfalse p
    simp [effectiveTraitProb, hiff, hfalse]
  · intro cellId keys probabilities hk
    exact traitProduct_eq_prod cellId keys probabilities manifest hk

/-- Witness for C8 at concrete inputs: the ATUS hobby trait `t2` is
transformed, the instant-basis health trait `t1` is passed through. -/
theorem claim_C8_witness :
    isAtusOrHobbyTrait "t2" wModeled.manifest = temporalBasisIsDailyDiary wT2
      ∧ effectiveTraitProb wModeled.manifest "t1" (1/2) = 1/2 := by
  have h2 := claim_C8 wModeled.manifest "t2" wT2 (by decide)
  have h1 := claim_C8 wModeled.manifest "t1" wT1 (by decide)
  exact ⟨h2.1, h1.2.2.1 (by decide) (1/2)⟩

/-- Counterexample data: a single adult cell. -/
def c9Cell : AcsCell :=
  ⟨"b1", RegionKey.northeast, SexKey.male, AgeBandKey.a18_24, 1⟩

/-- Counterexample data: one all-ages trait with probability 0 at the only
cell (all trait probabilities lie in [0,1], no entry missing). -/
def c9Modeled : ModeledAssets :=
  ⟨⟨1, [c9Cell]⟩, ⟨[⟨"t9", TraitGroup.Health, "X", 0, RegionSupport.modeled⟩]⟩,
   [("t9", [("b1", 0)])]⟩

/-- Counterexample data: an employment share table with shares of 3,
outside [0,1] - the point of the counterexample. -/
def c9Pop : PopulationData :=
  ⟨[], [], [], [], [], [], [("k1", ⟨0, 3⟩), ("k2", ⟨0, 3⟩)]⟩

/-- Counterexample data: both employment keys chosen, no trait. -/
def c9Sel : SelectionState :=
  { wSelEmpty with employment := ["k1", "k2"] }

/-- Counterexample data: the same selection with trait `t9` added. -/
def c9SelT : SelectionState :=
  { c9Sel with modeledTraits := ["t9"] }

/-- Counterexample for C9: with cell populations non-negative, all trait
probabilities in [0,1] and no missing entries - but an employment SHARE of
3, outside [0,1], which the claim does not exclude - the employment union
probability is 1 - (1-3)(1-3) = -3, the single cell contributes -3, and
adding trait `t9` (per-cell probability 0) RAISES the estimated count from
-3 to 0.  So estimatedCount is not monotone under adding a trait without a
share-range assumption. -/
theorem claim_C9_counterexample :
    (estimatePopulation c9Sel c9Modeled c9Pop).map (fun r => r.estimated)
        = some (-3)
      ∧ (estimatePopulation c9SelT c9Modeled c9Pop).map (fun r => r.estimated)
        = some 0
      ∧ ((-3 : ℤ) < 0) := by
  have hcdp : computeDimensionProbability c9Sel.employment c9Pop.employment = -3 := by
    have hs1 : shareOf c9Pop.employment "k1" = 3 := by decide
    have hs2 : shareOf c9Pop.employment "k2" = 3 := by decide
    rw [computeDimensionProbability_closed _ _ (by decide)]
    show 1 - (List.map (fun key => 1 - shareOf c9Pop.employment key) ["k1", "k2"]).prod = -3
    simp only [List.map_cons, List.map_nil, List.prod_cons, List.prod_nil, hs1, hs2]
    norm_num
  have hemp : computeCellEmploymentFactor AgeBandKey.a18_24 c9Sel c9Pop = -3 := by
    simp only [computeCellEmploymentFactor]
    rw [if_neg (by decide),
      if_neg (by norm_num [getEmploymentEligibilityFactor, EMPLOYMENT_ELIGIBILITY_FACTOR])]
    rw [hcdp]
    norm_num [getEmploymentEligibilityFactor, EMPLOYMENT_ELIGIBILITY_FACTOR]
  have hbase1 : computeBaseShareFactor c9Sel c9Pop = 1 := by
    simp only [computeBaseShareFactor, List.foldl_cons, List.foldl_nil]
    norm_num [computeDimensionProbability, c9Sel, wSelEmpty, clamp, max_def, min_def]
  refine ⟨?_, ?_, by norm_num⟩
  · have hrun1 := estimatePopulation_run c9Sel c9Modeled c9Pop (by decide)
    have hfil1 : engineFiltered c9Sel c9Modeled = [c9Cell] := by decide
    have hws1 : weightedSumSpec c9Sel c9Modeled c9Pop = -3 := by
      rw [weightedSumSpec, hfil1]
      simp only [List.map_cons, List.map_nil, List.sum_cons, List.sum_nil,
        cellContribution]
      rw [hbase1]
      have hband : c9Cell.age_band = AgeBandKey.a18_24 := rfl
      have hpop9 : c9Cell.pop = 1 := rfl
      have hmult1 : cellTraitMultiplier c9Modeled c9Sel.modeledTraits c9Cell = 1 := rfl
      rw [hband, hpop9, hmult1, hemp]
      norm_num
    have hest1 : (resultSpec c9Sel c9Modeled c9Pop).estimated = -3 := by
      simp only [resultSpec]
      rw [hws1]
      norm_num [jsRound, Int.floor_eq_iff]
    rw [hrun1]
    simp only [Option.map_some']
    rw [hest1]
  · have hrun2 := estimatePopulation_run c9SelT c9Modeled c9Pop (by decide)
    have hfil2 : engineFiltered c9SelT c9Modeled = [c9Cell] := by decide
    have hlook : lookupTraitProb c9Modeled.traitProbabilities "t9" "b1" = some 0 := by
      decide
    have hatus : isAtusOrHobbyTrait "t9" c9Modeled.manifest = false := by decide
    have hmult2 : cellTraitMultiplier c9Modeled c9SelT.modeledTraits c9Cell = 0 := by
      simp [cellTraitMultiplier, c9SelT, c9Sel, wSelEmpty, effectiveTraitProb,
        hatus, c9Cell, hlook]
    have hws2 : weightedSumSpec c9SelT c9Modeled c9Pop = 0 := by
      rw [weightedSumSpec, hfil2]
      simp only [List.map_cons, List.map_nil, List.sum_cons, List.sum_nil,
        cellContribution]
      rw [hmult2]
      ring
    have hest2 : (resultSpec c9SelT c9Modeled c9Pop).estimated = 0 := by
      simp only [resultSpec]
      rw [hws2]
      norm_num [jsRound, Int.floor_eq_iff]
    rw [hrun2]
    simp only [Option.map_some']
    rw [hest2]

/-- The selection with one more modeled trait chosen (all other dimensions
unchanged). -/
def consTrait (selection : SelectionState) (tk : String) : SelectionState :=
  { selection with modeledTraits := tk :: selection.modeledTraits }

/-- C9 as amended: adding a modeled trait never increases the estimated
count, PROVIDED additionally that all (employment) shares lie in [0,1] -
the well-formedness the data model guarantees but the claim's hypothesis
list omitted; the other hypotheses are the claim's own (populations
non-negative, trait probabilities in [0,1], no missing entries, trait not
already selected). -/
theorem claim_C9_amended (selection : SelectionState) (tk : String)
    (modeled : ModeledAssets) (population : PopulationData)
    (htk : tk ∉ selection.modeledTraits)
    (hpop : ∀ cell ∈ modeled.acsCells.cells, 0 ≤ cell.pop)
    (hprob : ∀ e ∈ modeled.traitProbabilities, ∀ kv ∈ e.2, 0 ≤ kv.2 ∧ kv.2 ≤ 1)
    (hemp : ∀ kv ∈ population.employment, 0 ≤ kv.2.share ∧ kv.2.share ≤ 1)
    (hmiss : ∀ k ∈ tk :: selection.modeledTraits, ∀ cell ∈ modeled.acsCells.cells,
      (lookupTraitProb modeled.traitProbabilities k cell.cell_id).isSome) :
    ∃ r r2, estimatePopulation selection modeled population = some r
      ∧ estimatePopulation (consTrait selection tk) modeled population = some r2
      ∧ r2.estimated ≤ r.estimated := by
  have hsucc1 : ∀ cell ∈ engineFiltered selection modeled,
      ∀ k ∈ selection.modeledTraits,
      (lookupTraitProb modeled.traitProbabilities k cell.cell_id).isSome :=
    fun cell hc k hk => hmiss k (List.mem_cons_of_mem _ hk) cell
      (((filterCells_mem _ _ _ _).mp hc).1)
  have hsucc2 : ∀ cell ∈ engineFiltered (consTrait selection tk) modeled,
      ∀ k ∈ (consTrait selection tk).modeledTraits,
      (lookupTraitProb modeled.traitProbabilities k cell.cell_id).isSome :=
    fun cell hc k hk => hmiss k hk cell (((filterCells_mem _ _ _ _).mp hc).1)
  refine ⟨resultSpec selection modeled population,
    resultSpec (consTrait selection tk) modeled population,
    estimatePopulation_run selection modeled population hsucc1,
    estimatePopulation_run (consTrait selection tk) modeled population hsucc2, ?_⟩
  show jsRound (weightedSumSpec (consTrait selection tk) modeled population)
    ≤ jsRound (weightedSumSpec selection modeled population)
  apply jsRound_mono
  have hminAge : engineMinAge selection modeled
      ≤ engineMinAge (consTrait selection tk) modeled :=
    engineMinAge_mono selection (consTrait selection tk) modeled
      (fun k hk => List.mem_cons_of_mem _ hk)
  have hsublist : List.Sublist (engineFiltered (consTrait selection tk) modeled)
      (engineFiltered selection modeled) := by
    unfold engineFiltered
    exact filterCells_sublist modeled.acsCells.cells selection (consTrait selection tk)
      hminAge rfl rfl rfl
  have hpoint : ∀ cell ∈ engineFiltered (consTrait selection tk) modeled,
      cellContribution (consTrait selection tk) modeled population cell
        ≤ cellContribution selection modeled population cell := by
    intro cell hc
    have hcell : cell ∈ modeled.acsCells.cells := ((filterCells_mem _ _ _ _).mp hc).1
    have hp : 0 ≤ cell.pop := hpop cell hcell
    show cell.pop * cellTraitMultiplier modeled (tk :: selection.modeledTraits) cell
        * computeCellEmploymentFactor cell.age_band selection population
        * computeBaseShareFactor selection population
      ≤ cell.pop * cellTraitMultiplier modeled selection.modeledTraits cell
        * computeCellEmploymentFactor cell.age_band selection population
        * computeBaseShareFactor selection population
    have hmult : cellTraitMultiplier modeled (tk :: selection.modeledTraits) cell
        = effectiveTraitProb modeled.manifest tk
            ((lookupTraitProb modeled.traitProbabilities tk cell.cell_id).getD 0)
          * cellTraitMultiplier modeled selection.modeledTraits cell := by
      simp [cellTraitMultiplier]
    rw [hmult]
    have he := @effectiveTraitProb_unit modeled.manifest
      ((lookupTraitProb modeled.traitProbabilities tk cell.cell_id).getD 0)
      (lookupTraitProb_getD_unit hprob tk cell.cell_id) tk
    have hm := cellTraitMultiplier_unit hprob selection.modeledTraits cell
    have hE := computeCellEmploymentFactor_unit hemp cell.age_band selection
    have hB := computeBaseShareFactor_unit selection population
    have base_nonneg : 0 ≤ cell.pop
        * cellTraitMultiplier modeled selection.modeledTraits cell
        * computeCellEmploymentFactor cell.age_band selection population
        * computeBaseShareFactor selection population :=
      mul_nonneg (mul_nonneg (mul_nonneg hp hm.1) hE.1) hB.1
    nlinarith [mul_nonneg (sub_nonneg.mpr he.2) base_nonneg]
  have hsum1 : weightedSumSpec (consTrait selection tk) modeled population
      ≤ ((engineFiltered (consTrait selection tk) modeled).map
          (cellContribution selection modeled population)).sum := by
    unfold weightedSumSpec
    exact List.sum_le_sum hpoint
  have hnonneg : ∀ x ∈ (engineFiltered selection modeled).map
      (cellContribution selection modeled population), 0 ≤ x := by
    intro x hx
    obtain ⟨cell, hcell, rfl⟩ := List.mem_map.mp hx
    exact cellContribution_nonneg hprob hemp
      (hpop cell (((filterCells_mem _ _ _ _).mp hcell).1))
  have hsum2 : ((engineFiltered (consTrait selection tk) modeled).map
        (cellContribution selection modeled population)).sum
      ≤ weightedSumSpec selection modeled population := by
    unfold weightedSumSpec
    exact List.Sublist.sum_le_sum
      (List.Sublist.map (cellContribution selection modeled population) hsublist) hnonneg
  exact le_trans hsum1 hsum2

/-- Witness for the amended C9 at concrete inputs: adding the daily-diary
trait `t2` to a selection of `t1` over the two-cell backbone. -/
theorem claim_C9_amended_witness :
    ∃ r r2, estimatePopulation wSelT1 wModeled wPop = some r
      ∧ estimatePopulation (consTrait wSelT1 "t2") wModeled wPop = some r2
      ∧ r2.estimated ≤ r.estimated :=
  claim_C9_amended wSelT1 "t2" wModeled wPop (by decide)
    (by norm_num [wModeled, wCell1, wCell2, List.forall_mem_cons])
    (by
      norm_num [wModeled, List.forall_mem_cons]
      constructor <;> rintro a b (⟨-, rfl⟩ | ⟨-, rfl⟩) <;> norm_num)
    (by norm_num [wPop, List.forall_mem_cons])
    (by decide)
